import Mathlib

/-!
Verification of the loyalbooks audiobook scraper (src/app.py) against its
natural-language specification.

The development is a shallow embedding of src/app.py.  Python strings are
modelled as List Char.  Python exceptions that the program catches are
modelled by total functions returning fallback values exactly where the
source catches them; exceptions that escape a function are modelled by an
Option/Except result where none / .error means "an uncaught exception
propagates".  External collaborators (the HTTP transport, the XML and HTML
parsers of the standard library and BeautifulSoup, os.makedirs, the aria2
daemon) are modelled at the boundary: their *outcomes* are inputs of the
embedded functions, and the side effects the program performs are collected
into explicit effect lists.
-/

/-! ### Python string primitives -/

/-- Space character (used instead of a space character literal). -/
def sp : Char := Char.ofNat 32

/-- ASCII apostrophe character. -/
def apos : Char := Char.ofNat 39

/-- Python str.strip() whitespace test, restricted to the ASCII whitespace
characters (space, tab, newline, carriage return, vertical tab, form feed).
Python also strips some Unicode whitespace; no input in this development
contains any. -/
def isPySpace (c : Char) : Bool :=
  c.toNat = 32 || c.toNat = 9 || c.toNat = 10 || c.toNat = 13 || c.toNat = 11 || c.toNat = 12

/-- ASCII decimal digit test.  Python str.isdigit() and int() additionally
accept some Unicode digits; no input in this development contains any. -/
def isDig (c : Char) : Bool :=
  48 ≤ c.toNat && c.toNat ≤ 57

/-- Python str.strip(): drop leading and trailing whitespace. -/
def pyStrip (s : List Char) : List Char :=
  ((s.dropWhile isPySpace).reverse.dropWhile isPySpace).reverse

/-- Python str.lower(), on the ASCII range (Char.toLower). -/
def pyLower (s : List Char) : List Char :=
  s.map Char.toLower

/-- Numeric value of a decimal digit string. -/
def decVal (s : List Char) : Nat :=
  s.foldl (fun acc c => 10 * acc + (c.toNat - 48)) 0

/-- Core of pyInt, applied to the already-stripped string: optional sign,
then a nonempty digit string; None models the ValueError raised otherwise. -/
def pyIntCore : List Char → Option Int
  | [] => none
  | c :: rest =>
    if c = '+' then
      if rest ≠ [] ∧ rest.all isDig then some ((decVal rest : Int)) else none
    else if c = '-' then
      if rest ≠ [] ∧ rest.all isDig then some (-(decVal rest : Int)) else none
    else if (c :: rest).all isDig then some ((decVal (c :: rest) : Int)) else none

/-- Python int(str): strip whitespace, optional sign, then a nonempty digit
string; None models the ValueError raised otherwise.  (Python additionally
allows underscore digit grouping, which never occurs in this program's
inputs and is not modelled.) -/
def pyInt (s : List Char) : Option Int :=
  pyIntCore (pyStrip s)

/-- Python str.isdigit() (ASCII digits). -/
def pyIsdigit (s : List Char) : Bool :=
  !s.isEmpty && s.all isDig

/-- Worker for pySplit: scan the text left to right looking for the leftmost
occurrence of the separator d :: ds, accumulating the current piece in acc
(reversed).  The fuel argument only serves structural termination; fuel equal
to the length of the scanned text is always sufficient because every step
consumes at least one character. -/
def splitGo (d : Char) (ds : List Char) : Nat → List Char → List Char → List (List Char)
  | 0, acc, s => [acc.reverse ++ s]
  | _ + 1, acc, [] => [acc.reverse]
  | fuel + 1, acc, c :: cs =>
    if (d :: ds).isPrefixOf (c :: cs) then
      acc.reverse :: splitGo d ds fuel [] ((c :: cs).drop (ds.length + 1))
    else splitGo d ds fuel (c :: acc) cs

/-- Python str.split(sep) for a nonempty separator: split on every
(leftmost-first, non-overlapping) occurrence of sep.  Python raises
ValueError on an empty separator; this program only ever splits on the
nonempty literals "Page ", " of " and " by ". -/
def pySplit (s sep : List Char) : List (List Char) :=
  match sep with
  | [] => [s]
  | d :: ds => splitGo d ds s.length [] s

/-- Python's substring containment test (the `in` operator on str). -/
def pyIn (sub s : List Char) : Bool :=
  match s with
  | [] => sub.isPrefixOf []
  | c :: cs => sub.isPrefixOf (c :: cs) || pyIn sub cs

/-! ### Pagination parser (src/app.py lines 69-89, get_pagination_info) -/

/-- The separator literal 'Page ' of line 77. -/
def sepPage : List Char := "Page ".toList

/-- The separator literal ' of ' of line 77. -/
def sepOf : List Char := " of ".toList

/-- The substring literal 'Page' of line 75. -/
def strPage : List Char := "Page".toList

/-- The substring literal 'of' of line 75. -/
def strOf : List Char := "of".toList

/-- The pagination dictionary built by get_pagination_info.  In the source
the has_previous / has_next keys are simply absent when the result-pages div
is missing; every consumer reads them with dict.get, for which an absent key
and a None value are indistinguishable, so both are modelled as none. -/
structure PaginationInfo where
  current_page : Int
  total_pages : Int
  has_previous : Option Int
  has_next : Option Int
deriving Repr, DecidableEq

/-- Embeds get_pagination_info (src/app.py lines 69-89).  The input is the
text of the result-pages marker node (div.result-pages, read with
get_text(strip=True)), or none when the page has no such node; modelling the
text extraction itself is BeautifulSoup's job, not this program's.  PAGE is
the module-global requested page number.

Control flow of the source, line by line: start from
{current_page: PAGE, total_pages: PAGE}; if the marker node exists and its
text contains 'Page' and 'of', take split('Page ')[1] (IndexError caught),
then split(' of '); current_page := int(parts[0]) (ValueError caught);
total_pages := int(parts[1].replace('>', '')) (ValueError/IndexError
caught).  The two assignments are separate statements guarded by one
try/except, so a failure in the second one leaves the first one in place:
that partial update is modelled faithfully by the (cur, PAGE) outcomes.
has_previous / has_next are then derived from whatever current_page and
total_pages hold. -/
def get_pagination_info (PAGE : Int) (markerText : Option (List Char)) : PaginationInfo :=
  match markerText with
  | none => { current_page := PAGE, total_pages := PAGE, has_previous := none, has_next := none }
  | some text =>
    let ct : Int × Int :=
      if pyIn strPage text && pyIn strOf text then
        match (pySplit text sepPage).drop 1 with
        | [] => (PAGE, PAGE)
        | o1 :: _ =>
          match pyInt ((pySplit o1 sepOf).headD []) with
          | none => (PAGE, PAGE)
          | some cur =>
            match (pySplit o1 sepOf).drop 1 with
            | [] => (cur, PAGE)
            | p1 :: _ =>
              match pyInt (p1.filter (fun c => c != '>')) with
              | none => (cur, PAGE)
              | some tot => (cur, tot)
      else (PAGE, PAGE)
    { current_page := ct.1, total_pages := ct.2,
      has_previous := if 1 < ct.1 then some (ct.1 - 1) else none,
      has_next := if ct.1 < ct.2 then some (ct.1 + 1) else none }

/-- The value int(parts[0]) assigned to current_page by get_pagination_info,
or none when that assignment is never reached or raises: the conditions under
which the source leaves current_page at its fallback value. -/
def marker_current (text : List Char) : Option Int :=
  if pyIn strPage text && pyIn strOf text then
    match (pySplit text sepPage).drop 1 with
    | [] => none
    | o1 :: _ => pyInt ((pySplit o1 sepOf).headD [])
  else none

/-- The previousPage/nextPage invariant of spec section 3: previousPage is
present iff currentPage > 1, nextPage is present iff
currentPage < totalPages. -/
def pagination_invariant (r : PaginationInfo) : Prop :=
  (r.has_previous.isSome ↔ 1 < r.current_page) ∧
  (r.has_next.isSome ↔ r.current_page < r.total_pages)

instance (r : PaginationInfo) : Decidable (pagination_invariant r) := by
  unfold pagination_invariant; infer_instance

/-! ### Canonical title derivation (src/app.py lines 116-117) -/

/-- The separator literal ' by ' of line 116. -/
def sepBy : List Char := " by ".toList

/-- Embeds the book_title_cleaned expression of src/app.py lines 116-117:
book_title.split(' by ')[0].strip().lower().replace(' ', '-').replace("'", '').
A single-character replace is a map; a replace by the empty string is a
filter. -/
def clean_title (book_title : List Char) : List Char :=
  (((pyLower (pyStrip ((pySplit book_title sepBy).headD []))).map
      (fun c => if c = sp then '-' else c)).filter (fun c => c != apos))

/-! ### XML documents (xml.etree.ElementTree) and the feed translator
(src/app.py lines 100-142) -/

/-- An ElementTree element: tag, attributes, the text directly inside the
element (None for an element such as an empty title), and child elements. -/
structure XmlElem where
  tag : List Char
  attrs : List (List Char × List Char)
  text : Option (List Char)
  children : List XmlElem
deriving Repr

set_option linter.unusedTactic false

/-- All elements strictly below the given forest in document order
(pre-order), as traversed by ElementTree's './/' path steps. -/
def descList : List XmlElem → List XmlElem
  | [] => []
  | e :: rest => e :: (descList e.children ++ descList rest)
termination_by l => sizeOf l
decreasing_by
  all_goals first
    | (cases e; simp; omega)
    | (simp; omega)
    | simp

/-- ElementTree find('.//name'): the first descendant element with the given
tag, in document order. -/
def findDesc (name : List Char) (e : XmlElem) : Option XmlElem :=
  ((descList e.children).filter (fun x => x.tag == name)).head?

/-- ElementTree find('name'): the first direct child with the given tag. -/
def findChild (name : List Char) (e : XmlElem) : Option XmlElem :=
  (e.children.filter (fun x => x.tag == name)).head?

/-- ElementTree Element.get(key): attribute lookup, None when absent. -/
def getAttr (e : XmlElem) (k : List Char) : Option (List Char) :=
  (e.attrs.find? (fun p1 => p1.1 == k)).map (fun p1 => p1.2)

/-- The externally visible side effects performed by download_book:
os.makedirs(path, exist_ok=...) and one aria2 add_uris([url], {dir}) request
per media URL (src/app.py lines 120 and 138).  A URL of none is Python's
None, which line 122 produces for an enclosure with no url attribute. -/
inductive Effect where
  | makedirs (path : List Char) (exist_ok : Bool)
  | add_uris (uris : List (Option (List Char))) (dir : List Char)
deriving Repr, DecidableEq

/-- Effect classifier used to state that everything after the directory
creation is a download submission. -/
def isAddUris : Effect → Bool
  | .add_uris _ _ => true
  | .makedirs _ _ => false

/-- Tag literal 'title' of line 113. -/
def strTitle : List Char := "title".toList

/-- Tag literal 'item' of line 122. -/
def strItem : List Char := "item".toList

/-- Tag literal 'enclosure' of line 122. -/
def strEnclosure : List Char := "enclosure".toList

/-- Attribute literal 'url' of line 122. -/
def strUrl : List Char := "url".toList

/-- The AUDIOBOOKS_DIR constant of line 12. -/
def strAudiobooks : List Char := "audiobooks".toList

/-- The 'unknown_title' fallback of line 115. -/
def strUnknownTitle : List Char := "unknown_title".toList

/-- Embeds os.path.join(a, b) for one relative or absolute component b
(posixpath semantics: an absolute b replaces a; otherwise a slash is
inserted unless a already ends with one or is empty). -/
def os_path_join (a b : List Char) : List Char :=
  if b.head? = some '/' then b
  else if a = [] ∨ a.getLast? = some '/' then a ++ b
  else a ++ '/' :: b

/-- The expression item.find('enclosure').get('url') of line 122, evaluated
on an item that has an enclosure child (none therefore means the enclosure
carries no url attribute, i.e. Python None). -/
def item_url (it : XmlElem) : Option (List Char) :=
  match findChild strEnclosure it with
  | some enc => getAttr enc strUrl
  | none => none

/-- The list rss_feed.findall('.//item') of line 122. -/
def items_of (feed : XmlElem) : List XmlElem :=
  (descList feed.children).filter (fun e => e.tag == strItem)

/-- The items of the feed that pass the line-123 condition
`item.find('enclosure') is not None` (one DownloadJob is emitted per such
item; the others are skipped). -/
def enclosure_items (feed : XmlElem) : List XmlElem :=
  (items_of feed).filter (fun it => (findChild strEnclosure it).isSome)

/-- The effect trace of download_book (src/app.py lines 116-142) once the
book title string has been obtained: derive the cleaned title, create the
target directory, then submit one add_uris request per enclosure URL in feed
order, all sharing the one directory. -/
def download_book_effects (rss_feed : XmlElem) (book_title : List Char) : List Effect :=
  let book_dir := os_path_join strAudiobooks (clean_title book_title)
  let mp3_urls := (enclosure_items rss_feed).map item_url
  Effect.makedirs book_dir true :: mp3_urls.map (fun u => Effect.add_uris [u] book_dir)

/-- Embeds download_book (src/app.py lines 111-142).  Lines 113-115 read
rss_feed.find('.//title'); when that element exists but its text is None
(e.g. the feed contains an empty title element), line 114 evaluates
None.strip() and the AttributeError propagates out of the function: that
uncaught exception is the none result.  Otherwise the effect trace of the
call is returned. -/
def download_book (rss_feed : XmlElem) : Option (List Effect) :=
  match findDesc strTitle rss_feed with
  | some te =>
    match te.text with
    | none => none
    | some t => some (download_book_effects rss_feed (pyStrip t))
  | none => some (download_book_effects rss_feed strUnknownTitle)

/-- Condition under which download_book does not crash on line 114: the
first './/title' element, if any, has non-None text. -/
def title_text_ok (feed : XmlElem) : Bool :=
  match findDesc strTitle feed with
  | none => true
  | some te => te.text.isSome

/-- The book_title string of lines 113-115 (meaningful under
title_text_ok). -/
def book_title_of (feed : XmlElem) : List Char :=
  match findDesc strTitle feed with
  | none => strUnknownTitle
  | some te => pyStrip (te.text.getD [])

/-- The book_dir value of line 119 (meaningful under title_text_ok). -/
def book_dir_of (feed : XmlElem) : List Char :=
  os_path_join strAudiobooks (clean_title (book_title_of feed))

/-! ### Feed fetcher (src/app.py lines 100-108, fetch_rss_feed) -/

/-- Outcome of the external collaborators inside fetch_rss_feed: either
requests.get / raise_for_status raises a requests.RequestException
(transportError), or a response body is obtained and ET.fromstring either
parses it (some document) or raises a ParseError on a malformed body
(none). -/
inductive FeedFetchOutcome where
  | transportError
  | response (parsed : Option XmlElem)

/-- Result of a fetch_rss_feed call: the returned value or the escaping
exception, plus whether the error print of line 107 ran. -/
structure FetchResult where
  result : Except Unit (Option XmlElem)
  logged : Bool

/-- Embeds fetch_rss_feed (src/app.py lines 100-108).  The except clause of
line 106 catches requests.RequestException only: a transport failure is
logged and becomes a None return, but the ParseError raised by
ET.fromstring on a malformed body is not a RequestException and propagates
out of the function (modelled as Except.error). -/
def fetch_rss_feed : FeedFetchOutcome → FetchResult
  | .transportError => { result := .ok none, logged := true }
  | .response (some doc) => { result := .ok (some doc), logged := false }
  | .response none => { result := .error (), logged := false }

/-! ### os.makedirs semantics (external collaborator of line 120) -/

/-- Insert a path into a directory set unless already present. -/
def insertNew (acc : List (List Char)) (p : List Char) : List (List Char) :=
  if p ∈ acc then acc else acc ++ [p]

/-- Join path components with '/' separators. -/
def joinSlash (l : List (List Char)) : List Char :=
  (List.intersperse ['/'] l).flatten

/-- The chain of ancestor paths of a slash-separated path, shortest first
(e.g. audiobooks, audiobooks/title). -/
def ancestorPaths (path : List Char) : List (List Char) :=
  let comps := pySplit path ['/']
  (List.range comps.length).map (fun i => joinSlash (comps.take (i + 1)))

/-- Modelled from the documented semantics of Python os.makedirs(path,
exist_ok): a filesystem is the set of existing directories; the call creates
the directory and all its ancestors, and raises FileExistsError (none) only
when the full path already exists and exist_ok is false.  The program always
passes exist_ok=True (line 120). -/
def run_makedirs (fs : List (List Char)) (path : List Char) (exist_ok : Bool) :
    Option (List (List Char)) :=
  if path ∈ fs ∧ exist_ok = false then none
  else some ((ancestorPaths path).foldl insertNew fs)

/-! ### Catalog parser (src/app.py lines 28-66, fetch_books) -/

/-- A BeautifulSoup node: an element with tag name, attributes and mixed
children, or a bare text node (NavigableString). -/
inductive HNode where
  | elem (tagName : List Char) (attrs : List (List Char × List Char)) (children : List HNode)
  | textNode (s : List Char)
deriving Repr

/-- Children of a node (a text node has none). -/
def hChildren : HNode → List HNode
  | .elem _ _ cs => cs
  | .textNode _ => []

/-- Attributes of a node. -/
def hAttrs : HNode → List (List Char × List Char)
  | .elem _ a _ => a
  | .textNode _ => []

/-- Attribute lookup on a BeautifulSoup tag's attribute list. -/
def getAttrH (attrs : List (List Char × List Char)) (k : List Char) : Option (List Char) :=
  (attrs.find? (fun p1 => p1.1 == k)).map (fun p1 => p1.2)

/-- BeautifulSoup Tag.find with an element predicate on tag name and
attributes: first matching element in document order (pre-order over the
descendants; a search with a name criterion never matches bare strings). -/
def bsFind (p : List Char → List (List Char × List Char) → Bool) :
    List HNode → Option HNode
  | [] => none
  | .textNode _ :: rest => bsFind p rest
  | .elem nm a cs :: rest =>
    if p nm a then some (.elem nm a cs)
    else
      match bsFind p cs with
      | some r => some r
      | none => bsFind p rest
termination_by l => sizeOf l
decreasing_by
  all_goals first
    | (simp; omega)
    | simp

/-- Find the first element with the given tag in document order, returning
it together with the siblings that follow it in its parent's child list:
exactly what the find_next_sibling() walk of lines 47-52 iterates over. -/
def findTagWithSibs (name : List Char) : List HNode → Option (HNode × List HNode)
  | [] => none
  | .textNode _ :: rest => findTagWithSibs name rest
  | .elem nm a cs :: rest =>
    if nm = name then some (.elem nm a cs, rest)
    else
      match findTagWithSibs name cs with
      | some r => some r
      | none => findTagWithSibs name rest
termination_by l => sizeOf l
decreasing_by
  all_goals first
    | (simp; omega)
    | simp

/-- Tag.text / get_text(): the concatenation of all strings below a forest
in document order. -/
def hText : List HNode → List Char
  | [] => []
  | .textNode s :: rest => s ++ hText rest
  | .elem _ _ cs :: rest => hText cs ++ hText rest
termination_by l => sizeOf l
decreasing_by
  all_goals first
    | (simp; omega)
    | simp

/-- The author-search loop of src/app.py lines 46-52: walk the siblings
after the title tag; take the first bare string whose strip() is nonempty;
default to 'Unknown Author'. -/
def authorFrom : List HNode → List Char
  | [] => "Unknown Author".toList
  | .textNode s :: rest => if (pyStrip s).isEmpty then authorFrom rest else pyStrip s
  | .elem _ _ _ :: rest => authorFrom rest

/-- The site origin prepended to relative links (lines 39 and 54). -/
def site_origin : List Char := "http://www.loyalbooks.com".toList

/-- One row of the books list built by fetch_books (lines 57-62). -/
structure Book where
  title : List Char
  author : List Char
  link : Option (List Char)
  cover_image : Option (List Char)
deriving Repr, DecidableEq

/-- Embeds the per-entry body of the fetch_books loop (src/app.py lines
37-62) on one td.layout2-blue entry.  The outer Option models an uncaught
exception; the inner Option models the `continue` of line 43.  Details:
find('a', href=True) is the first descendant anchor that has an href (its
href lookup then cannot fail); find('b') is the first descendant bold tag
(bs4 tags are always truthy, so `if not title_tag` is a None test);
title_tag.text is the concatenated text below the bold tag; the author walk
is authorFrom; entry.find('img')['src'] raises an uncaught KeyError when
the first img carries no src attribute. -/
def parseEntry (entry : HNode) : Option (Option Book) :=
  let kids := hChildren entry
  let link : Option (List Char) :=
    match bsFind (fun nm a => nm == "a".toList && (getAttrH a "href".toList).isSome) kids with
    | some lt => some (site_origin ++ ((getAttrH (hAttrs lt) "href".toList).getD []))
    | none => none
  match findTagWithSibs "b".toList kids with
  | none => some none
  | some (bt, sibs) =>
    let title := pyStrip (hText (hChildren bt))
    let author := authorFrom sibs
    match bsFind (fun nm _ => nm == "img".toList) kids with
    | none => some (some { title := title, author := author, link := link, cover_image := none })
    | some img =>
      match getAttrH (hAttrs img) "src".toList with
      | none => none
      | some src =>
        some (some { title := title, author := author, link := link,
                     cover_image := some (site_origin ++ src) })

/-- Embeds the fetch_books listing loop (src/app.py lines 36-63) over the
entries found by find_all('td', class_='layout2-blue').  The transport
try/except of lines 30-33 and 64-66 (RequestException caught, empty list
returned) is outside this function; a none result models an exception (the
KeyError of parseEntry) escaping the loop. -/
def fetch_books : List HNode → Option (List Book)
  | [] => some []
  | e :: rest =>
    match parseEntry e with
    | none => none
    | some none => fetch_books rest
    | some (some b) => (fetch_books rest).map (fun bs => b :: bs)

/-- Does the entry have a bold title tag (the line-42 test)? -/
def hasBoldTag (entry : HNode) : Bool :=
  (findTagWithSibs "b".toList (hChildren entry)).isSome

/-- Is the node a bare string with nonempty strip(), i.e. an author
candidate for lines 48-52? -/
def isNonemptyStr : HNode → Bool
  | .textNode s => !(pyStrip s).isEmpty
  | .elem _ _ _ => false

/-- The entry's title tag has no author candidate among its following
siblings (vacuously true when there is no title tag). -/
def noAuthorSibling (entry : HNode) : Bool :=
  match findTagWithSibs "b".toList (hChildren entry) with
  | some (_, sibs) => sibs.all (fun n => !isNonemptyStr n)
  | none => true

/-! ### Interactive controller step (src/app.py lines 168-199) -/

/-- Observable actions of one pass of the inner input loop of main: console
prints, the feed request issued by fetch_rss_feed, and the effects of
download_book. -/
inductive MainEffect where
  | printMsg (msg : List Char)
  | feedRequest (url : List Char)
  | bookEffect (e : Effect)
deriving Repr, DecidableEq

/-- Result of one pass of the inner input loop: the effects performed, the
value of the global PAGE afterwards, and whether the pass left the inner
loop (breaks = true redisplays a page; breaks = false re-prompts). -/
structure StepResult where
  effects : List MainEffect
  newPage : Int
  breaks : Bool
deriving Repr, DecidableEq

/-- Message of line 180. -/
def msg_failed_feed : List Char :=
  "Failed to fetch the RSS feed. Please try again.".toList

/-- Message of lines 183-184 (the interpolated listing length). -/
def msg_invalid_choice (n : Nat) : List Char :=
  ("Invalid choice. Please enter a number between 1 and " ++ toString n ++ ".").toList

/-- Message of line 190. -/
def msg_no_next : List Char := "No next page available.".toList

/-- Message of line 196. -/
def msg_no_previous : List Char := "No previous page available.".toList

/-- Message of lines 198-199. -/
def msg_invalid_input : List Char :=
  "Invalid input. Please enter a number, \x27n\x27 for next page, or \x27p\x27 for previous page.".toList

/-- Message of line 142. -/
def msg_download_started : List Char := "Download started!".toList

/-- Python truthiness of pagination_info.get('has_next'): an absent key or a
None value is falsy, and so is the integer 0. -/
def pyTruthyOptInt : Option Int → Bool
  | none => false
  | some v => v != 0

/-- Embeds one pass of the inner input loop of main (src/app.py lines
168-199).  raw is the line read by input(); books and pagination_info are
the current listing and pagination dictionary; PAGE is the current global
page; feedOf gives the outcome of the HTTP feed request per URL.  A digit
choice within range selects a book: with no link (or an empty-string link,
both falsy) nothing at all happens and the loop breaks (line 181); with a
link, fetch_rss_feed runs (its ParseError propagating as none), and `if
rss_feed:` on line 177 is ElementTree truthiness, so a childless document
counts as a failed fetch; otherwise download_book runs (its AttributeError
propagating as none) followed by the line-142 print.  The n / p branches
move the page when the has_next / has_previous values are truthy.  The
result of none models an uncaught exception. -/
def handle_choice (PAGE : Int) (books : List Book) (pagination_info : PaginationInfo)
    (raw : List Char) (feedOf : List Char → FeedFetchOutcome) : Option StepResult :=
  let choice := pyLower (pyStrip raw)
  if pyIsdigit choice then
    if 1 ≤ decVal choice ∧ decVal choice ≤ books.length then
      match (books.drop (decVal choice - 1)).head? with
      | none => none
      | some selected =>
        match selected.link with
        | none => some { effects := [], newPage := PAGE, breaks := true }
        | some url =>
          if url.isEmpty then some { effects := [], newPage := PAGE, breaks := true }
          else
            match (fetch_rss_feed (feedOf url)).result with
            | .error _ => none
            | .ok none =>
              some { effects := [.feedRequest url, .printMsg msg_failed_feed],
                     newPage := PAGE, breaks := true }
            | .ok (some rss) =>
              if rss.children.isEmpty then
                some { effects := [.feedRequest url, .printMsg msg_failed_feed],
                       newPage := PAGE, breaks := true }
              else
                match download_book rss with
                | none => none
                | some effs =>
                  some { effects := .feedRequest url ::
                           (effs.map MainEffect.bookEffect ++ [.printMsg msg_download_started]),
                         newPage := PAGE, breaks := true }
    else
      some { effects := [.printMsg (msg_invalid_choice books.length)],
             newPage := PAGE, breaks := false }
  else if choice = "n".toList then
    if pyTruthyOptInt pagination_info.has_next then
      some { effects := [], newPage := PAGE + 1, breaks := true }
    else
      some { effects := [.printMsg msg_no_next], newPage := PAGE, breaks := false }
  else if choice = "p".toList then
    if pyTruthyOptInt pagination_info.has_previous then
      some { effects := [], newPage := PAGE - 1, breaks := true }
    else
      some { effects := [.printMsg msg_no_previous], newPage := PAGE, breaks := false }
  else
    some { effects := [.printMsg msg_invalid_input], newPage := PAGE, breaks := false }

/-! ### Concrete inputs used by witnesses and counterexamples -/

/-- Enclosure element with a url attribute. -/
def enclU (u : List Char) : XmlElem :=
  { tag := strEnclosure, attrs := [(strUrl, u)], text := none, children := [] }

/-- Item carrying an enclosure with the given url. -/
def itemU (u : List Char) : XmlElem :=
  { tag := strItem, attrs := [], text := none, children := [enclU u] }

/-- Enclosure element with no url attribute. -/
def encl0 : XmlElem := { tag := strEnclosure, attrs := [], text := none, children := [] }

/-- Item carrying an enclosure with no url attribute. -/
def item0 : XmlElem := { tag := strItem, attrs := [], text := none, children := [encl0] }

/-- Item with no enclosure child at all. -/
def itemNoEnc : XmlElem := { tag := strItem, attrs := [], text := none, children := [] }

/-- Title element whose text is None, as ElementTree produces for an empty
title element. -/
def emptyTitleElem : XmlElem := { tag := strTitle, attrs := [], text := none, children := [] }

/-- Title element with the short text 'T'. -/
def titleT : XmlElem := { tag := strTitle, attrs := [], text := some "T".toList, children := [] }

/-- Feed with an empty title element and one enclosure-bearing item. -/
def feedBadTitle : XmlElem :=
  { tag := "rss".toList, attrs := [], text := none,
    children := [emptyTitleElem, itemU "http://e/1.mp3".toList] }

/-- Feed with an empty title element and one url-less enclosure item. -/
def feedBadTitle0 : XmlElem :=
  { tag := "rss".toList, attrs := [], text := none, children := [emptyTitleElem, item0] }

/-- Feed with a good title, three enclosure-bearing items and one item with
no enclosure. -/
def feedW : XmlElem :=
  { tag := "rss".toList, attrs := [], text := none,
    children := [titleT, itemU "u1".toList, itemNoEnc, itemU "u2".toList, itemU "u3".toList] }

/-- Feed with a good title and one url-less enclosure item. -/
def feedW0 : XmlElem :=
  { tag := "rss".toList, attrs := [], text := none, children := [titleT, item0] }

/-- Feed with a good title and no enclosures at all. -/
def feedZero : XmlElem :=
  { tag := "rss".toList, attrs := [], text := none, children := [titleT] }

/-- A book whose detail link is None. -/
def bookNoLink : Book :=
  { title := "A Book".toList, author := "Unknown Author".toList, link := none,
    cover_image := none }

/-- A single-page pagination dictionary. -/
def pagW : PaginationInfo :=
  { current_page := 1, total_pages := 1, has_previous := none, has_next := none }

/-- Feed oracle under which every HTTP feed request fails in transport. -/
def feedOfDown : List Char → FeedFetchOutcome := fun _ => FeedFetchOutcome.transportError

/-- Bold title tag with one text child. -/
def bTagX : HNode := .elem "b".toList [] [.textNode "A Title".toList]

/-- Image element with no src attribute. -/
def imgNoSrc : HNode := .elem "img".toList [] []

/-- Catalog entry with a bold title but an src-less image: parsing it raises
KeyError. -/
def entryCrash : HNode := .elem "td".toList [] [bTagX, imgNoSrc]

/-- Catalog entry with no bold tag at all. -/
def entryNoBold : HNode := .elem "td".toList [] [.textNode "hello".toList]

/-- Catalog entry with a bold title followed by an author string. -/
def entryGood : HNode := .elem "td".toList [] [bTagX, .textNode " Jane Doe ".toList]

/-- Catalog entry with a bold title and no author candidate after it. -/
def entryNoAuthor : HNode := .elem "td".toList [] [bTagX]

/-! ### Helper lemmas about the string primitives -/

/-- splitGo never finds a separator in a text that lacks the separator's
first character, so it returns the single piece accumulated so far. -/
theorem splitGo_none (d : Char) (ds : List Char) :
    ∀ (fuel : Nat) (acc s : List Char), d ∉ s →
      splitGo d ds fuel acc s = [acc.reverse ++ s] := by
  intro fuel
  induction fuel with
  | zero => intro acc s _; rfl
  | succ n ih =>
    intro acc s hs
    cases s with
    | nil => simp [splitGo]
    | cons c cs =>
      have hdc : d ≠ c := fun h => hs (h ▸ List.mem_cons_self c cs)
      have hpre : (d :: ds).isPrefixOf (c :: cs) = false := by
        simp [List.isPrefixOf_cons₂, hdc]
      rw [splitGo, hpre]
      simp only [Bool.false_eq_true, if_false]
      rw [ih (c :: acc) cs (fun h => hs (List.mem_cons_of_mem c h))]
      simp

/-- splitGo does not depend on the fuel as long as the fuel covers the length
of the scanned text. -/
theorem splitGo_fuel (d : Char) (ds : List Char) :
    ∀ (f1 f2 : Nat) (acc s : List Char), s.length ≤ f1 → s.length ≤ f2 →
      splitGo d ds f1 acc s = splitGo d ds f2 acc s := by
  intro f1
  induction f1 with
  | zero =>
    intro f2 acc s h1 _
    have : s = [] := List.eq_nil_of_length_eq_zero (Nat.le_zero.mp h1)
    subst this
    cases f2 <;> simp [splitGo]
  | succ n ih =>
    intro f2 acc s h1 h2
    cases s with
    | nil => cases f2 <;> simp [splitGo]
    | cons c cs =>
      cases f2 with
      | zero => exact absurd h2 (by simp)
      | succ m =>
        rw [splitGo, splitGo]
        by_cases hpre : (d :: ds).isPrefixOf (c :: cs) = true
        · rw [hpre]
          simp only [if_true]
          have hlen : ((c :: cs).drop (ds.length + 1)).length ≤ n := by
            simp only [List.length_drop, List.length_cons]
            simp only [List.length_cons] at h1
            omega
          have hlen2 : ((c :: cs).drop (ds.length + 1)).length ≤ m := by
            simp only [List.length_drop, List.length_cons]
            simp only [List.length_cons] at h2
            omega
          rw [ih m [] _ hlen hlen2]
        · rw [Bool.not_eq_true] at hpre
          rw [hpre]
          simp only [Bool.false_eq_true, if_false]
          have hlen : cs.length ≤ n := by simp only [List.length_cons] at h1; omega
          have hlen2 : cs.length ≤ m := by simp only [List.length_cons] at h2; omega
          exact ih m (c :: acc) cs hlen hlen2

/-- Running splitGo on b ++ sep ++ a, where the separator's first character
does not occur in b, yields the piece b followed by the splitting of a. -/
theorem splitGo_clean (d : Char) (ds : List Char) :
    ∀ (b : List Char) (fuel : Nat) (acc a : List Char), d ∉ b →
      (b ++ (d :: ds) ++ a).length ≤ fuel →
      splitGo d ds fuel acc (b ++ (d :: ds) ++ a) =
        (acc.reverse ++ b) :: splitGo d ds a.length [] a := by
  intro b
  induction b with
  | nil =>
    intro fuel acc a _ hfuel
    simp only [List.nil_append] at hfuel ⊢
    cases fuel with
    | zero => exact absurd hfuel (by simp)
    | succ n =>
      have hpre : (d :: ds).isPrefixOf (d :: ds ++ a) = true := by
        rw [List.isPrefixOf_iff_prefix]
        exact List.prefix_append (d :: ds) a
      have hcons : (d :: ds) ++ a = d :: (ds ++ a) := by simp
      rw [hcons] at hfuel ⊢
      rw [splitGo]
      rw [show (d :: ds).isPrefixOf (d :: (ds ++ a)) = true from by
        rw [← hcons]; exact hpre]
      simp only [if_true]
      have hdrop : (d :: (ds ++ a)).drop (ds.length + 1) = a := by
        have : d :: (ds ++ a) = (d :: ds) ++ a := by simp
        rw [this, List.drop_left' (by simp)]
      rw [hdrop]
      have hlen : a.length ≤ n := by
        simp only [List.length_cons, List.length_append] at hfuel
        omega
      rw [splitGo_fuel d ds n a.length [] a hlen (Nat.le_refl _)]
      simp
  | cons x b' ih =>
    intro fuel acc a hb hfuel
    cases fuel with
    | zero => exact absurd hfuel (by simp)
    | succ n =>
      have hdx : d ≠ x := fun h => hb (h ▸ List.mem_cons_self x b')
      have hstep : (x :: b') ++ (d :: ds) ++ a = x :: (b' ++ (d :: ds) ++ a) := by simp
      rw [hstep, splitGo]
      rw [show (d :: ds).isPrefixOf (x :: (b' ++ (d :: ds) ++ a)) = false from by
        simp [List.isPrefixOf_cons₂, hdx]]
      simp only [Bool.false_eq_true, if_false]
      have hlen : (b' ++ (d :: ds) ++ a).length ≤ n := by
        rw [hstep] at hfuel
        simp only [List.length_cons] at hfuel
        omega
      rw [ih n (x :: acc) a (fun h => hb (List.mem_cons_of_mem x h)) hlen]
      simp

/-- pySplit of a text with no occurrence of the separator's first character
returns the whole text as the single piece. -/
theorem pySplit_none (d : Char) (ds s : List Char) (h : d ∉ s) :
    pySplit s (d :: ds) = [s] := by
  rw [pySplit, splitGo_none d ds s.length [] s h]
  simp

/-- pySplit of b ++ sep ++ a, where the separator's first character does not
occur in b, is b consed onto the splitting of a. -/
theorem pySplit_clean (d : Char) (ds b a : List Char) (hb : d ∉ b) :
    pySplit (b ++ (d :: ds) ++ a) (d :: ds) = b :: pySplit a (d :: ds) := by
  rw [pySplit, pySplit, splitGo_clean d ds b _ [] a hb (Nat.le_refl _)]
  simp

/-- Python's `in` test always accepts the empty substring. -/
theorem pyIn_nil (s : List Char) : pyIn [] s = true := by
  cases s <;> simp [pyIn, List.isPrefixOf]

/-- A text that literally contains sub as a contiguous segment passes
Python's `in` test. -/
theorem pyIn_append (sub pre post : List Char) :
    pyIn sub (pre ++ sub ++ post) = true := by
  induction pre with
  | nil =>
    simp only [List.nil_append]
    cases sub with
    | nil => simpa using pyIn_nil post
    | cons a as =>
      have hpre : (a :: as).isPrefixOf (a :: (as ++ post)) = true := by
        rw [List.isPrefixOf_iff_prefix]
        exact List.prefix_append (a :: as) post
      simp only [List.cons_append, pyIn, List.append_eq, hpre, Bool.true_or]
  | cons c pre' ih =>
    rw [show (c :: pre') ++ sub ++ post = c :: (pre' ++ sub ++ post) from by simp]
    simp only [pyIn]
    rw [ih]
    simp

/-- dropWhile is the identity on a list none of whose elements satisfy the
predicate. -/
theorem dropWhile_all_false (p : Char → Bool) (l : List Char)
    (h : ∀ c ∈ l, p c = false) : l.dropWhile p = l := by
  cases l with
  | nil => rfl
  | cons c cs =>
    rw [List.dropWhile_cons, h c (List.mem_cons_self c cs)]
    simp

/-- pyStrip is the identity on a string with no whitespace at all. -/
theorem pyStrip_eq_self (s : List Char) (h : ∀ c ∈ s, isPySpace c = false) :
    pyStrip s = s := by
  rw [pyStrip, dropWhile_all_false isPySpace s h]
  rw [dropWhile_all_false isPySpace s.reverse (fun c hc => h c (List.mem_reverse.mp hc))]
  exact List.reverse_reverse s

/-- A digit is not whitespace. -/
theorem isDig_not_space (c : Char) (h : isDig c = true) : isPySpace c = false := by
  simp only [isDig, Bool.and_eq_true, decide_eq_true_eq] at h
  simp only [isPySpace, Bool.or_eq_false_iff, decide_eq_false_iff_not]
  omega

/-- Python int() of a nonempty all-digit string succeeds and returns the
decimal value of the string. -/
theorem pyInt_digits (s : List Char) (h1 : s ≠ []) (h2 : ∀ c ∈ s, isDig c = true) :
    pyInt s = some ((decVal s : Int)) := by
  have hstrip : pyStrip s = s :=
    pyStrip_eq_self s (fun c hc => isDig_not_space c (h2 c hc))
  rw [pyInt, hstrip]
  cases s with
  | nil => exact absurd rfl h1
  | cons c rest =>
    have hc : isDig c = true := h2 c (List.mem_cons_self c rest)
    have hplus : c ≠ '+' := by
      intro h; subst h; exact absurd hc (by decide)
    have hminus : c ≠ '-' := by
      intro h; subst h; exact absurd hc (by decide)
    rw [pyIntCore, if_neg hplus, if_neg hminus, if_pos]
    exact List.all_eq_true.mpr h2

/-- A digit character is not 'P'. -/
theorem isDig_ne_P (c : Char) (h : isDig c = true) : c ≠ 'P' := by
  intro hcP; subst hcP; exact absurd h (by decide)

/-- A digit character is not '>'. -/
theorem isDig_ne_gt (c : Char) (h : isDig c = true) : (c != '>') = true := by
  simp only [bne_iff_ne, ne_eq]
  intro hcgt; subst hcgt; exact absurd h (by decide)

/-! ### Helper lemmas about the translator, makedirs and the catalog parser -/

/-- Unfolding of download_book in the non-crashing case: the trace is one
makedirs of the derived directory followed by one add_uris per
enclosure-bearing item, in feed order, all sharing that directory. -/
theorem download_book_spec (feed : XmlElem) (h : title_text_ok feed = true) :
    download_book feed = some (Effect.makedirs (book_dir_of feed) true ::
      (enclosure_items feed).map (fun it => Effect.add_uris [item_url it] (book_dir_of feed))) := by
  cases hfd : findDesc strTitle feed with
  | none =>
    simp only [download_book, hfd, download_book_effects, book_dir_of, book_title_of,
      List.map_map]
    rfl
  | some te =>
    cases hte : te.text with
    | none => simp [title_text_ok, hfd, hte] at h
    | some t =>
      simp only [download_book, hfd, hte, download_book_effects, book_dir_of, book_title_of,
        List.map_map, Option.getD_some]
      rfl

/-- Everything already in the accumulator, or in the list being folded in,
is in the result of the insertNew fold. -/
theorem foldl_insert_mem (l : List (List Char)) (acc : List (List Char)) (x : List Char)
    (hx : x ∈ l ∨ x ∈ acc) : x ∈ l.foldl insertNew acc := by
  induction l generalizing acc with
  | nil =>
    rcases hx with h | h
    · simp at h
    · simpa using h
  | cons y ys ih =>
    simp only [List.foldl_cons]
    rcases hx with h | h
    · rcases List.mem_cons.mp h with rfl | h2
      · refine ih _ (Or.inr ?_)
        unfold insertNew
        by_cases hy : x ∈ acc
        · simp [hy]
        · simp [hy]
      · exact ih _ (Or.inl h2)
    · refine ih _ (Or.inr ?_)
      unfold insertNew
      by_cases hy : y ∈ acc
      · simp [hy, h]
      · simp [hy, h]

/-- Folding insertNew over paths that are all already present changes
nothing. -/
theorem foldl_insert_noop (l : List (List Char)) (acc : List (List Char))
    (h : ∀ x ∈ l, x ∈ acc) : l.foldl insertNew acc = acc := by
  induction l with
  | nil => rfl
  | cons y ys ih =>
    simp only [List.foldl_cons]
    rw [show insertNew acc y = acc from by
      unfold insertNew; simp [h y (List.mem_cons_self y ys)]]
    exact ih (fun x hx => h x (List.mem_cons_of_mem y hx))

/-- A skipped entry (parseEntry returning the inner none, i.e. the continue
of line 43) is exactly an entry with no bold tag. -/
theorem parseEntry_some_none (e : HNode) (h : parseEntry e = some none) :
    hasBoldTag e = false := by
  unfold hasBoldTag
  cases hf : findTagWithSibs "b".toList (hChildren e) with
  | none => simp
  | some p =>
    obtain ⟨bt, sibs⟩ := p
    exfalso
    simp only [parseEntry, hf] at h
    cases hi : bsFind (fun nm _ => nm == "img".toList) (hChildren e) with
    | none => simp only [hi] at h; exact Option.noConfusion (Option.some.inj h)
    | some img =>
      simp only [hi] at h
      cases hsrc : getAttrH (hAttrs img) "src".toList with
      | none => simp only [hsrc] at h; exact Option.noConfusion h
      | some src => simp only [hsrc] at h; exact Option.noConfusion (Option.some.inj h)

/-- An entry with no bold tag is skipped (the continue of line 43). -/
theorem parseEntry_noBold (e : HNode) (h : hasBoldTag e = false) :
    parseEntry e = some none := by
  unfold hasBoldTag at h
  cases hf : findTagWithSibs "b".toList (hChildren e) with
  | none => simp only [parseEntry, hf]
  | some p => rw [hf] at h; simp at h

/-- An entry with a bold tag whose first image element lacks a src
attribute crashes the loop with a KeyError (line 54). -/
theorem parseEntry_crash (e : HNode) (bt : HNode) (sibs : List HNode) (img : HNode)
    (hf : findTagWithSibs "b".toList (hChildren e) = some (bt, sibs))
    (hi : bsFind (fun nm _ => nm == "img".toList) (hChildren e) = some img)
    (hsrc : getAttrH (hAttrs img) "src".toList = none) :
    parseEntry e = none := by
  simp only [parseEntry, hf, hi, hsrc]

/-- An entry whose first image element (if any) carries a src attribute is
parsed without raising. -/
theorem parseEntry_ne_none (e : HNode)
    (h : ∀ img, bsFind (fun nm _ => nm == "img".toList) (hChildren e) = some img →
      (getAttrH (hAttrs img) "src".toList).isSome = true) :
    parseEntry e ≠ none := by
  cases hf : findTagWithSibs "b".toList (hChildren e) with
  | none =>
    rw [parseEntry_noBold e (by simp only [hasBoldTag, hf, Option.isSome_none])]
    simp
  | some p =>
    obtain ⟨bt, sibs⟩ := p
    simp only [parseEntry, hf]
    cases hi : bsFind (fun nm _ => nm == "img".toList) (hChildren e) with
    | none => simp
    | some img =>
      have h2 := h img hi
      cases hsrc : getAttrH (hAttrs img) "src".toList with
      | none => rw [hsrc] at h2; simp at h2
      | some src => simp only [hsrc]; simp

/-- The author loop yields the default when no following sibling is a
nonempty bare string. -/
theorem authorFrom_unknown (sibs : List HNode) (h : ∀ n ∈ sibs, isNonemptyStr n = false) :
    authorFrom sibs = "Unknown Author".toList := by
  induction sibs with
  | nil => rfl
  | cons n rest ih =>
    cases n with
    | textNode s =>
      have hn : (pyStrip s).isEmpty = true := by
        have := h _ (List.mem_cons_self _ _)
        simpa [isNonemptyStr] using this
      unfold authorFrom
      rw [if_pos hn]
      exact ih (fun x hx => h x (List.mem_cons_of_mem _ hx))
    | elem nm a cs =>
      unfold authorFrom
      exact ih (fun x hx => h x (List.mem_cons_of_mem _ hx))

/-- A book produced from an entry whose bold tag has no author candidate
among its following siblings carries the default author. -/
theorem parseEntry_author (e : HNode) (bk : Book) (hpe : parseEntry e = some (some bk))
    (hna : noAuthorSibling e = true) : bk.author = "Unknown Author".toList := by
  simp only [parseEntry] at hpe
  cases hf : findTagWithSibs "b".toList (hChildren e) with
  | none => rw [hf] at hpe; simp at hpe
  | some p =>
    obtain ⟨bt, sibs⟩ := p
    simp only [hf] at hpe
    have hall : ∀ n ∈ sibs, isNonemptyStr n = false := by
      simp only [noAuthorSibling, hf] at hna
      intro n hn
      have := List.all_eq_true.mp hna n hn
      simpa using this
    cases hi : bsFind (fun nm _ => nm == "img".toList) (hChildren e) with
    | none =>
      simp only [hi, Option.some.injEq] at hpe
      rw [← hpe]
      exact authorFrom_unknown sibs hall
    | some img =>
      simp only [hi] at hpe
      cases hsrc : getAttrH (hAttrs img) "src".toList with
      | none => simp only [hsrc] at hpe; exact Option.noConfusion hpe
      | some src =>
        simp only [hsrc, Option.some.injEq] at hpe
        rw [← hpe]
        exact authorFrom_unknown sibs hall

/-- An entry that raises makes fetch_books raise: no listing is produced. -/
theorem fetch_books_crash_head (e : HNode) (rest : List HNode) (h : parseEntry e = none) :
    fetch_books (e :: rest) = none := by
  simp only [fetch_books, h]

/-- When no entry crashes the loop, fetch_books produces a listing whose
length is the number of entries that have a bold title tag. -/
theorem fetch_books_books (entries : List HNode) (hok : ∀ e ∈ entries, parseEntry e ≠ none) :
    ∃ bs, fetch_books entries = some bs ∧
      bs.length = (entries.filter hasBoldTag).length := by
  induction entries with
  | nil => exact ⟨[], rfl, rfl⟩
  | cons e rest ih =>
    obtain ⟨bs, hbs, hlen⟩ := ih (fun x hx => hok x (List.mem_cons_of_mem e hx))
    cases hpe : parseEntry e with
    | none => exact absurd hpe (hok e (List.mem_cons_self e rest))
    | some o =>
      cases o with
      | none =>
        have hb : hasBoldTag e = false := parseEntry_some_none e hpe
        refine ⟨bs, ?_, ?_⟩
        · simp [fetch_books, hpe, hbs]
        · simp [List.filter_cons, hb, hlen]
      | some bk =>
        have hb : hasBoldTag e = true := by
          by_contra hb2
          have := parseEntry_noBold e (by simpa using hb2)
          rw [hpe] at this
          simp at this
        refine ⟨bk :: bs, ?_, ?_⟩
        · simp [fetch_books, hpe, hbs]
        · simp [List.filter_cons, hb, hlen]

/-- The record built at the end of get_pagination_info satisfies the
previous/next invariant by construction. -/
theorem pag_build_invariant (c t : Int) :
    pagination_invariant
      { current_page := c, total_pages := t,
        has_previous := if 1 < c then some (c - 1) else none,
        has_next := if c < t then some (c + 1) else none } := by
  unfold pagination_invariant
  constructor
  · by_cases h : 1 < c <;> simp [h]
  · by_cases h : c < t <;> simp [h]

/-! ### Claim C1 -/

/-- Claim C1, counterexample: the claim promises that trailing stray
characters after the total number are stripped, for every marker text of the
form 'Page X of Y' plus strays.  The source only strips '>' characters
(replace('>', '') on line 79); on the marker text 'Page 2 of 5x' (X = 2,
Y = 5, stray 'x') with requested page 1, int('5x') raises, the caught
ValueError leaves total_pages at the fallback 1, and the parser does not
return totalPages == 5. -/
theorem C1_counterexample :
    ¬ ((get_pagination_info 1 (some "Page 2 of 5x".toList)).current_page = 2 ∧
       (get_pagination_info 1 (some "Page 2 of 5x".toList)).total_pages = 5) := by
  decide

/-- Claim C1, amended: for every pagination marker text of the form
'Page X of Y' whose trailing stray characters are '>' characters (the only
stray characters the source strips), the parser returns currentPage == X and
totalPages == Y.  X and Y are given by their digit strings dx and dy, whose
numeric values are decVal dx and decVal dy. -/
theorem C1_theorem (PAGE : Int) (dx dy strays : List Char)
    (hdx1 : dx ≠ []) (hdx2 : ∀ c ∈ dx, isDig c = true)
    (hdy1 : dy ≠ []) (hdy2 : ∀ c ∈ dy, isDig c = true)
    (hstr : ∀ c ∈ strays, c = '>') :
    (get_pagination_info PAGE
        (some (sepPage ++ (dx ++ (sepOf ++ (dy ++ strays)))))).current_page
      = ((decVal dx : Int)) ∧
    (get_pagination_info PAGE
        (some (sepPage ++ (dx ++ (sepOf ++ (dy ++ strays)))))).total_pages
      = ((decVal dy : Int)) := by
  have hdxP : ∀ c ∈ dx, c ≠ 'P' := fun c hc => isDig_ne_P c (hdx2 c hc)
  have hdyP : ∀ c ∈ dy, c ≠ 'P' := fun c hc => isDig_ne_P c (hdy2 c hc)
  have hnoP : 'P' ∉ dx ++ (sepOf ++ (dy ++ strays)) := by
    intro hmem
    rcases List.mem_append.mp hmem with h1 | h2
    · exact hdxP 'P' h1 rfl
    · rcases List.mem_append.mp h2 with h3 | h4
      · exact absurd h3 (by decide)
      · rcases List.mem_append.mp h4 with h5 | h6
        · exact hdyP 'P' h5 rfl
        · exact absurd (hstr 'P' h6) (by decide)
  have hsplitPage : pySplit (sepPage ++ (dx ++ (sepOf ++ (dy ++ strays)))) sepPage
      = [[], dx ++ (sepOf ++ (dy ++ strays))] := by
    rw [show sepPage = 'P' :: "age ".toList from by decide]
    have h1 := pySplit_clean 'P' "age ".toList [] (dx ++ (sepOf ++ (dy ++ strays))) (by simp)
    simp only [List.nil_append] at h1
    rw [h1, pySplit_none 'P' "age ".toList _ hnoP]
  have hspDx : sp ∉ dx := by
    intro hmem
    have hd := hdx2 sp hmem
    exact absurd hd (by decide)
  have hnoSp : sp ∉ dy ++ strays := by
    intro hmem
    rcases List.mem_append.mp hmem with h1 | h2
    · exact absurd (hdy2 sp h1) (by decide)
    · exact absurd (hstr sp h2) (by decide)
  have hsplitOf : pySplit (dx ++ (sepOf ++ (dy ++ strays))) sepOf
      = [dx, dy ++ strays] := by
    rw [show sepOf = sp :: "of ".toList from by decide, ← List.append_assoc]
    have h1 := pySplit_clean sp "of ".toList dx (dy ++ strays) hspDx
    rw [h1, pySplit_none sp "of ".toList _ hnoSp]
  have hpyx : pyInt dx = some ((decVal dx : Int)) := pyInt_digits dx hdx1 hdx2
  have hfilter : (dy ++ strays).filter (fun c => c != '>') = dy := by
    rw [List.filter_append]
    have h1 : dy.filter (fun c => c != '>') = dy :=
      List.filter_eq_self.mpr (fun c hc => isDig_ne_gt c (hdy2 c hc))
    have h2 : strays.filter (fun c => c != '>') = [] :=
      List.filter_eq_nil_iff.mpr (fun c hc => by rw [hstr c hc]; decide)
    rw [h1, h2, List.append_nil]
  have hpyy : pyInt dy = some ((decVal dy : Int)) := pyInt_digits dy hdy1 hdy2
  have hPin : pyIn strPage (sepPage ++ (dx ++ (sepOf ++ (dy ++ strays)))) = true := by
    have heq : sepPage ++ (dx ++ (sepOf ++ (dy ++ strays)))
        = strPage ++ (sp :: (dx ++ (sepOf ++ (dy ++ strays)))) := by
      rw [show sepPage = strPage ++ [sp] from by decide, List.append_assoc]
      rfl
    rw [heq]
    have h2 := pyIn_append strPage [] (sp :: (dx ++ (sepOf ++ (dy ++ strays))))
    simpa using h2
  have hOfin : pyIn strOf (sepPage ++ (dx ++ (sepOf ++ (dy ++ strays)))) = true := by
    have heq : sepPage ++ (dx ++ (sepOf ++ (dy ++ strays)))
        = ((sepPage ++ dx) ++ [sp]) ++ strOf ++ (sp :: (dy ++ strays)) := by
      rw [show sepOf = ([sp] ++ strOf) ++ [sp] from by decide]
      simp [List.append_assoc]
    rw [heq]
    exact pyIn_append strOf ((sepPage ++ dx) ++ [sp]) (sp :: (dy ++ strays))
  have hres : get_pagination_info PAGE
      (some (sepPage ++ (dx ++ (sepOf ++ (dy ++ strays)))))
      = { current_page := ((decVal dx : Int)), total_pages := ((decVal dy : Int)),
          has_previous := if 1 < ((decVal dx : Int)) then some (((decVal dx : Int)) - 1) else none,
          has_next := if ((decVal dx : Int)) < ((decVal dy : Int))
            then some (((decVal dx : Int)) + 1) else none } := by
    simp only [get_pagination_info, hPin, hOfin, Bool.and_self, if_true, hsplitPage,
      List.drop_succ_cons, List.drop_zero, hsplitOf, List.headD_cons, hpyx, hfilter, hpyy]
  exact ⟨by rw [hres], by rw [hres]⟩

/-- Claim C1, witness: requested page 1 and marker text
'Page 12 of 34>' yield currentPage 12 and totalPages 34. -/
theorem C1_witness :
    (get_pagination_info 1
        (some (sepPage ++ ("12".toList ++ (sepOf ++ ("34".toList ++ ['>'])))))).current_page
      = 12 ∧
    (get_pagination_info 1
        (some (sepPage ++ ("12".toList ++ (sepOf ++ ("34".toList ++ ['>'])))))).total_pages
      = 34 := by
  have h := C1_theorem 1 "12".toList "34".toList ['>']
    (by decide) (by decide) (by decide) (by decide) (by decide)
  exact ⟨h.1.trans (by decide), h.2.trans (by decide)⟩

/-! ### Claim C2 -/

/-- Claim C2, counterexample: the marker text 'Page 3 of x' does not match
the 'Page <current> of <total>' pattern (its total is not numeric), yet with
requested page 1 the parser does not return the fallback pair (1, 1): line
78 has already set current_page to 3 when int('x') raises on line 79, so
only total_pages falls back — a partial update of exactly the kind the claim
rules out. -/
theorem C2_counterexample :
    ¬ ((get_pagination_info 1 (some "Page 3 of x".toList)).current_page = 1 ∧
       (get_pagination_info 1 (some "Page 3 of x".toList)).total_pages = 1) := by
  decide

/-- Claim C2, amended: for every marker text on which the current-page
assignment of line 78 never succeeds (the 'Page'/'of' markers are absent,
split('Page ')[1] raises IndexError, or int(parts[0]) raises ValueError —
the marker_current text = none condition), the parser returns the full
fallback currentPage = totalPages = the requested page, and it never throws
(the embedded parser is a total function: every parse failure is caught by
the source's try/except).  When the current portion parses but the total
portion fails, only totalPages falls back (see the counterexample). -/
theorem C2_theorem (PAGE : Int) (text : List Char) (h : marker_current text = none) :
    (get_pagination_info PAGE (some text)).current_page = PAGE ∧
    (get_pagination_info PAGE (some text)).total_pages = PAGE := by
  by_cases hcond : (pyIn strPage text && pyIn strOf text) = true
  · cases hdrop : (pySplit text sepPage).drop 1 with
    | nil => constructor <;> simp [get_pagination_info, hcond, hdrop]
    | cons o1 rest =>
      have hcur : pyInt ((pySplit o1 sepOf).headD []) = none := by
        simpa [marker_current, hcond, hdrop] using h
      have hcur2 : pyInt ((pySplit o1 sepOf).head?.getD []) = none := by
        simpa using hcur
      constructor <;> simp [get_pagination_info, hcond, hdrop, hcur, hcur2]
  · have hc : (pyIn strPage text && pyIn strOf text) = false := by
      simpa using hcond
    constructor <;> simp [get_pagination_info, hc]

/-- Claim C2, witness: on the non-matching marker text 'hello' with
requested page 7, both fields fall back to 7. -/
theorem C2_witness :
    (get_pagination_info 7 (some "hello".toList)).current_page = 7 ∧
    (get_pagination_info 7 (some "hello".toList)).total_pages = 7 :=
  C2_theorem 7 "hello".toList (by decide)

/-! ### Claim C3 -/

/-- Claim C3, counterexample: for markup with no pagination marker node and
requested page 2, the parser returns current_page = 2 with has_previous
absent, violating 'previousPage is present iff currentPage > 1' (the source
only computes has_previous/has_next inside the `if result_pages_div:` block
of lines 73-87, so both stay absent when the node is missing). -/
theorem C3_counterexample :
    ¬ pagination_invariant (get_pagination_info 2 none) := by
  decide

/-- Claim C3, amended: every PaginationState produced for markup whose
pagination marker node is present (whatever its text, including text that
fails to parse) satisfies the invariant: previousPage present iff
currentPage > 1 and nextPage present iff currentPage < totalPages.  When the
marker node is absent both optional fields are absent regardless of the
requested page, so the invariant can fail (see the counterexample). -/
theorem C3_theorem (PAGE : Int) (text : List Char) :
    pagination_invariant (get_pagination_info PAGE (some text)) :=
  pag_build_invariant _ _

/-! ### Claim C4 -/

/-- Claim C4, confirmed: canonical title derivation is the source's
split(' by ')[0].strip().lower().replace(' ', '-').replace("'", '')
composition (the clean_title definition); it maps the feed title
'Pride and Prejudice by Jane Austen' to 'pride-and-prejudice', and it is
deterministic and idempotent in the claim's sense: deriving twice from the
same feed title yields identical directory names. -/
theorem C4_theorem :
    clean_title "Pride and Prejudice by Jane Austen".toList = "pride-and-prejudice".toList ∧
    ∀ t : List Char, clean_title t = clean_title t :=
  ⟨by decide, fun _ => rfl⟩

/-! ### Claim C6 -/

/-- Claim C6, counterexample: on a response whose body is malformed
(ET.fromstring raises ParseError), fetch_rss_feed raises past its boundary
instead of returning None: the except clause of line 106 catches only
requests.RequestException, which ParseError is not. -/
theorem C6_counterexample :
    (fetch_rss_feed (FeedFetchOutcome.response none)).result = Except.error () := rfl

/-- Claim C6, amended: on transport failure fetch_rss_feed returns 'no
document' (None) and logs the error, and a well-formed body is returned
parsed; but on a malformed response body the ParseError propagates past the
boundary (see the counterexample). -/
theorem C6_theorem :
    (fetch_rss_feed FeedFetchOutcome.transportError).result = Except.ok none ∧
    (fetch_rss_feed FeedFetchOutcome.transportError).logged = true ∧
    (∀ d : XmlElem,
      (fetch_rss_feed (FeedFetchOutcome.response (some d))).result = Except.ok (some d)) ∧
    (fetch_rss_feed (FeedFetchOutcome.response none)).result = Except.error () :=
  ⟨rfl, rfl, fun _ => rfl, rfl⟩

/-! ### Claim C5 -/

/-- Claim C5, counterexample: the feed <rss><title/><item><enclosure
url=.../></item></rss> is a parsed feed document with exactly one
enclosure-bearing item, yet the translator emits no DownloadJob for it: the
title element's text is None, so line 114 evaluates None.strip() and the
AttributeError escapes before any job is produced. -/
theorem C5_counterexample :
    download_book feedBadTitle = none ∧ (enclosure_items feedBadTitle).length = 1 := by
  constructor
  · simp [download_book, findDesc, descList, feedBadTitle, emptyTitleElem, itemU, enclU,
      strTitle, strItem, strEnclosure]
  · simp [enclosure_items, items_of, descList, feedBadTitle, emptyTitleElem, itemU, enclU,
      findChild, strTitle, strItem, strEnclosure]

/-- Claim C5, amended: for every parsed feed document whose title element
(if any) has non-None text, the translator emits exactly one DownloadJob per
enclosure-bearing item — in feed order, with mediaUrl equal to that
enclosure's url attribute — all sharing the one directory derived from the
feed title, and items without an enclosure are skipped without error.  (A
feed whose first title element has None text instead crashes the translator:
see the counterexample.) -/
theorem C5_theorem (feed : XmlElem) (h : title_text_ok feed = true) :
    download_book feed = some (Effect.makedirs (book_dir_of feed) true ::
      (enclosure_items feed).map (fun it => Effect.add_uris [item_url it] (book_dir_of feed))) :=
  download_book_spec feed h

/-- Claim C5, witness: the feed feedW has three enclosure-bearing items and
one enclosure-less item, and the translator submits exactly three jobs, all
sharing the one target directory. -/
theorem C5_witness :
    download_book feedW = some (Effect.makedirs (book_dir_of feedW) true ::
      (enclosure_items feedW).map (fun it => Effect.add_uris [item_url it] (book_dir_of feedW))) ∧
    (enclosure_items feedW).length = 3 := by
  constructor
  · exact C5_theorem feedW (by
      simp [title_text_ok, findDesc, descList, feedW, titleT, itemU, enclU, itemNoEnc,
        strTitle, strItem, strEnclosure])
  · simp [enclosure_items, items_of, descList, feedW, titleT, itemU, enclU, itemNoEnc,
      findChild, strTitle, strItem, strEnclosure]

/-! ### Claim C7 -/

/-- Claim C7, counterexample: selecting index 1 on a listing whose book has
no detail link produces no effects at all — in particular no printed
message — and simply breaks out of the prompt loop: the `if
selected_book['link']:` of line 175 has no else branch, so the condition
never surfaces to the user.  (The claim's no-op half is true; the visible
message half is false.) -/
theorem C7_counterexample :
    handle_choice 1 [bookNoLink] pagW "1".toList feedOfDown =
      some { effects := [], newPage := 1, breaks := true } := by
  decide

/-- Claim C7, amended: when the user selects a valid index whose book has no
detail link, the selection is a no-op — no feed fetch, no jobs, and also no
printed message (silent) — and the inner prompt loop breaks, redisplaying
the same page. -/
theorem C7_theorem (PAGE : Int) (books : List Book) (pag : PaginationInfo)
    (raw : List Char) (feedOf : List Char → FeedFetchOutcome) (selected : Book)
    (hdig : pyIsdigit (pyLower (pyStrip raw)) = true)
    (hrange : 1 ≤ decVal (pyLower (pyStrip raw)) ∧
      decVal (pyLower (pyStrip raw)) ≤ books.length)
    (hsel : (books.drop (decVal (pyLower (pyStrip raw)) - 1)).head? = some selected)
    (hlink : selected.link = none) :
    handle_choice PAGE books pag raw feedOf =
      some { effects := [], newPage := PAGE, breaks := true } := by
  simp only [handle_choice, hdig, if_true, if_pos hrange, hsel, hlink]

/-- Claim C7, witness: requested page 5, a one-book listing whose book has
no link, input '1': the step returns no effects, page 5, and a break. -/
theorem C7_witness :
    handle_choice 5 [bookNoLink] pagW "1".toList feedOfDown =
      some { effects := [], newPage := 5, breaks := true } :=
  C7_theorem 5 [bookNoLink] pagW "1".toList feedOfDown bookNoLink
    (by decide) (by decide) (by decide) (by decide)

/-! ### Claim C8 -/

/-- Claim C8, counterexample: on the markup whose entries are
[entryCrash, entryNoBold] — the first entry has a bold title but its image
has no src attribute — the catalog parser does not produce a listing at all:
line 54 evaluates entry.find('img')['src'] and the KeyError escapes (only
requests.RequestException is caught), so neither the count property nor the
author property of the claim can hold on this markup. -/
theorem C8_counterexample :
    fetch_books [entryCrash, entryNoBold] = none ∧ hasBoldTag entryCrash = true := by
  have hb : findTagWithSibs "b".toList (hChildren entryCrash) = some (bTagX, [imgNoSrc]) := by
    simp [findTagWithSibs, entryCrash, bTagX, imgNoSrc, hChildren]
  have himg : bsFind (fun nm _ => nm == "img".toList) (hChildren entryCrash)
      = some imgNoSrc := by
    simp [bsFind, entryCrash, bTagX, imgNoSrc, hChildren]
  have hpe : parseEntry entryCrash = none :=
    parseEntry_crash entryCrash bTagX [imgNoSrc] imgNoSrc hb himg (by decide)
  constructor
  · exact fetch_books_crash_head entryCrash [entryNoBold] hpe
  · simp only [hasBoldTag, hb, Option.isSome_some]

/-- Claim C8, amended: for every catalog page markup in which no bold-titled
entry carries an image lacking a src attribute (so the per-entry loop never
raises), the parser excludes exactly the entries lacking a bold title node —
the listing length is the number of bold-titled entries — and every
included entry with no non-empty plain-text sibling following its title node
gets author 'Unknown Author'. -/
theorem C8_theorem (entries : List HNode) (hok : ∀ e ∈ entries, parseEntry e ≠ none) :
    ∃ bs, fetch_books entries = some bs ∧
      bs.length = (entries.filter hasBoldTag).length ∧
      ∀ e ∈ entries, ∀ bk : Book, parseEntry e = some (some bk) →
        noAuthorSibling e = true → bk.author = "Unknown Author".toList := by
  obtain ⟨bs, h1, h2⟩ := fetch_books_books entries hok
  exact ⟨bs, h1, h2, fun e _ bk hpe hna => parseEntry_author e bk hpe hna⟩

/-- Claim C8, witness: on the markup [entryGood, entryNoBold, entryNoAuthor]
the parser produces a listing of length 2 (the bold-less entry is dropped)
and the author defaulting applies to the entry without an author sibling. -/
theorem C8_witness :
    ∃ bs, fetch_books [entryGood, entryNoBold, entryNoAuthor] = some bs ∧
      bs.length =
        (([entryGood, entryNoBold, entryNoAuthor] : List HNode).filter hasBoldTag).length ∧
      ∀ e ∈ ([entryGood, entryNoBold, entryNoAuthor] : List HNode), ∀ bk : Book,
        parseEntry e = some (some bk) →
        noAuthorSibling e = true → bk.author = "Unknown Author".toList := by
  refine C8_theorem [entryGood, entryNoBold, entryNoAuthor] ?_
  have hg : parseEntry entryGood ≠ none := by
    refine parseEntry_ne_none entryGood ?_
    intro img himg
    have hni : bsFind (fun nm _ => nm == "img".toList) (hChildren entryGood) = none := by
      simp [bsFind, entryGood, bTagX, hChildren]
    rw [hni] at himg
    exact Option.noConfusion himg
  have hn : parseEntry entryNoBold ≠ none := by
    refine parseEntry_ne_none entryNoBold ?_
    intro img himg
    have hni : bsFind (fun nm _ => nm == "img".toList) (hChildren entryNoBold) = none := by
      simp [bsFind, entryNoBold, hChildren]
    rw [hni] at himg
    exact Option.noConfusion himg
  have ha : parseEntry entryNoAuthor ≠ none := by
    refine parseEntry_ne_none entryNoAuthor ?_
    intro img himg
    have hni : bsFind (fun nm _ => nm == "img".toList) (hChildren entryNoAuthor) = none := by
      simp [bsFind, entryNoAuthor, bTagX, hChildren]
    rw [hni] at himg
    exact Option.noConfusion himg
  intro e he
  simp only [List.mem_cons, List.not_mem_nil, or_false] at he
  rcases he with rfl | rfl | rfl
  · exact hg
  · exact hn
  · exact ha

/-! ### Claim C9 -/

/-- Claim C9, counterexample: on the successfully fetched feed feedBadTitle
the download attempt crashes on line 114 before reaching the makedirs call
of line 120, so the target directory is not created on this attempt. -/
theorem C9_counterexample : download_book feedBadTitle = none := by
  simp [download_book, findDesc, descList, feedBadTitle, emptyTitleElem, itemU, enclU,
    strTitle, strItem, strEnclosure]

/-- Claim C9, amended: on every download attempt that reaches the directory
creation (every feed whose title element, if any, has non-None text — the
attempt otherwise crashes first, see the counterexample), the target
directory creation with exist_ok=True is the first effect, before any job
submission and even when the feed has zero enclosures; and the creation call
is idempotent: with exist_ok=True it never fails, and repeating it leaves
the filesystem unchanged. -/
theorem C9_theorem :
    (∀ (feed : XmlElem) (tr : List Effect), download_book feed = some tr →
        tr.head? = some (Effect.makedirs (book_dir_of feed) true) ∧
        ∀ e ∈ tr.drop 1, isAddUris e = true) ∧
    (∀ (fs : List (List Char)) (p : List Char),
        ∃ fs2, run_makedirs fs p true = some fs2 ∧ run_makedirs fs2 p true = some fs2) := by
  constructor
  · intro feed tr htr
    have htr2 : tr = download_book_effects feed (book_title_of feed) := by
      cases hfd : findDesc strTitle feed with
      | none =>
        simp only [download_book, hfd, Option.some.injEq] at htr
        simp only [book_title_of, hfd]
        exact htr.symm
      | some te =>
        cases hte : te.text with
        | none =>
          simp only [download_book, hfd, hte] at htr
          exact Option.noConfusion htr
        | some t =>
          simp only [download_book, hfd, hte, Option.some.injEq] at htr
          simp only [book_title_of, hfd, hte, Option.getD_some]
          exact htr.symm
    subst htr2
    constructor
    · simp only [download_book_effects, book_dir_of, List.head?_cons]
    · intro e he
      simp only [download_book_effects, List.drop_succ_cons, List.drop_zero] at he
      rcases List.mem_map.mp he with ⟨u, _, rfl⟩
      rfl
  · intro fs p
    refine ⟨(ancestorPaths p).foldl insertNew fs, ?_, ?_⟩
    · simp [run_makedirs]
    · have hnoop : (ancestorPaths p).foldl insertNew ((ancestorPaths p).foldl insertNew fs)
          = (ancestorPaths p).foldl insertNew fs :=
        foldl_insert_noop _ _ (fun x hx => foldl_insert_mem _ fs x (Or.inl hx))
      simp [run_makedirs, hnoop]

/-- Claim C9, witness: the zero-enclosure feed feedZero still gets its
directory created (the trace is exactly one makedirs with exist_ok=True and
nothing after it), and creating audiobooks/t twice from an empty filesystem
succeeds both times with the same resulting filesystem. -/
theorem C9_witness :
    (([Effect.makedirs (book_dir_of feedZero) true] : List Effect).head? =
        some (Effect.makedirs (book_dir_of feedZero) true) ∧
      ∀ e ∈ ([Effect.makedirs (book_dir_of feedZero) true] : List Effect).drop 1,
        isAddUris e = true) ∧
    ∃ fs2, run_makedirs [] "audiobooks/t".toList true = some fs2 ∧
      run_makedirs fs2 "audiobooks/t".toList true = some fs2 := by
  have hdl : download_book feedZero = some [Effect.makedirs (book_dir_of feedZero) true] := by
    simp [download_book, findDesc, descList, feedZero, titleT, strTitle, strItem,
      download_book_effects, enclosure_items, items_of, findChild, book_dir_of,
      book_title_of]
  exact ⟨C9_theorem.1 feedZero _ hdl, C9_theorem.2 [] ("audiobooks/t".toList)⟩

/-! ### Claim C10 -/

/-- Claim C10, counterexample: the feed feedBadTitle0 carries an item whose
enclosure has no url attribute, but the translator emits no DownloadJob for
it at all — null-url or otherwise — because the None-texted title element
crashes line 114 first. -/
theorem C10_counterexample :
    download_book feedBadTitle0 = none ∧ item0 ∈ enclosure_items feedBadTitle0 ∧
      item_url item0 = none := by
  refine ⟨?_, ?_, by decide⟩
  · simp [download_book, findDesc, descList, feedBadTitle0, emptyTitleElem, item0, encl0,
      strTitle, strItem, strEnclosure]
  · simp [enclosure_items, items_of, descList, feedBadTitle0, emptyTitleElem, item0, encl0,
      findChild, strTitle, strItem, strEnclosure]

/-- Claim C10, amended: for every feed whose title element (if any) has
non-None text, an item carrying an enclosure element with no url attribute
is not skipped: the translator still emits a DownloadJob for it whose
mediaUrl is absent (None), and that null URL is passed to the download
submitter (an add_uris effect with uri None appears in the trace). -/
theorem C10_theorem (feed it2 : XmlElem) (h : title_text_ok feed = true)
    (hit : it2 ∈ enclosure_items feed) (hurl : item_url it2 = none) :
    ∃ tr, download_book feed = some tr ∧
      Effect.add_uris [none] (book_dir_of feed) ∈ tr := by
  refine ⟨_, download_book_spec feed h, ?_⟩
  apply List.mem_cons_of_mem
  have hmem : Effect.add_uris [item_url it2] (book_dir_of feed)
      ∈ (enclosure_items feed).map (fun it => Effect.add_uris [item_url it] (book_dir_of feed)) :=
    List.mem_map_of_mem _ hit
  rwa [hurl] at hmem

/-- Claim C10, witness: in the feed feedW0, whose single item's enclosure
has no url attribute, the translator's trace contains an add_uris effect
with the null URL. -/
theorem C10_witness :
    ∃ tr, download_book feedW0 = some tr ∧
      Effect.add_uris [none] (book_dir_of feedW0) ∈ tr := by
  refine C10_theorem feedW0 item0 ?_ ?_ (by decide)
  · simp [title_text_ok, findDesc, descList, feedW0, titleT, item0, encl0,
      strTitle, strItem, strEnclosure]
  · simp [enclosure_items, items_of, descList, feedW0, titleT, item0, encl0,
      findChild, strTitle, strItem, strEnclosure]
